import Mathlib

/-!
# Formal model of the `BiorbdModel` adapter

This development embeds the adapter class `BiorbdModel`
(`bioptim/interfaces/biorbd_model.py`): a thin facade mapping the
optimization framework's biomechanical-model capability set onto the
wrapped biorbd engine.

The wrapped engine is an external collaborator of the repository; its
queries are modelled as fields of `ModelStruct` (the model's fixed
structure).  Engine count accessors and the engine-side `marker_index`
utility are modelled from the specification: counts read the sizes of the
model-owned descriptor collections, and are reads of the fixed structure
only, never of the mutable kinematics cache.

Adapter methods are translated one-to-one from the Python source.  CasADi
`MX` conversion (`to_mx`) is modelled by the `Boxed` tag recording whether
a value was converted or left as a raw native engine object; `horzcat` of
column vectors is modelled as the list of its columns; Python `*args`
variadic calls are modelled as a `List EngArg`; engine calls that can fail
are modelled in `Except`.
-/

/-- A string object of the wrapped engine, carrying `to_string`. -/
structure BStr where
  str : String

/-- `to_string` of an engine string object. -/
def BStr.to_string (s : BStr) : String := s.str

/-- Scalar entries of engine numeric vectors. -/
abbrev Scalar := ℚ

/-- A flat engine numeric vector (generalized coordinates, forces, ...). -/
abbrev VecN := List Scalar

/-- A 3-component engine vector (marker position/velocity, angular
momentum). -/
abbrev Vec3 := Fin 3 → Scalar

/-- A 4×4 homogeneous transform (biorbd `RotoTrans`). -/
abbrev RT := Fin 4 → Fin 4 → Scalar

/-- Matrix transpose of a homogeneous transform. -/
def RT.transposeRT (T : RT) : RT := fun i j => T j i

/-- The identity homogeneous transform (`biorbd.RotoTrans()`). -/
def idRT : RT := fun i j => if i = j then 1 else 0

/-- Application of a homogeneous transform to a 3-vector (`applyRT`):
rotation block times the vector, plus the translation column. -/
def applyRT (T : RT) (v : Vec3) : Vec3 := fun i =>
  T i.castSucc 0 * v 0 + T i.castSucc 1 * v 1 + T i.castSucc 2 * v 2 +
    T i.castSucc 3

/-- A value crossing the adapter boundary: either converted to the
framework's `MX` matrix type via `to_mx`, or a raw native engine object. -/
inductive Boxed (α : Type) where
  | mx : α → Boxed α
  | native : α → Boxed α

/-- Whether a boundary value is of the framework's `MX` type. -/
def Boxed.isMX {α : Type} : Boxed α → Bool
  | .mx _ => true
  | .native _ => false

/-- One argument of a variadic engine call (`*args` in the source). -/
inductive EngArg where
  | vec : VecN → EngArg
  | idx : Nat → EngArg
  | flag : Bool → EngArg

/-- An error raised inside the wrapped engine. -/
abbrev EngineErr := String

/-- The fixed structure of the wrapped biorbd model: descriptor
collections, stored counts, and the engine's kinematics/dynamics queries
as opaque functions of the numeric inputs.  Every query taking numeric
state is exposed twice: through a total field modelling the call on
inputs where the engine succeeds (used by the layout/equivalence
theorems), and through a field suffixed `F` exposing the same call's
fallible interface in `Except` (the engine may raise on bad dimensions or
degenerate numerical conditions, spec §7), used by the error-propagation
theorem. -/
structure ModelStruct where
  dofNames : List BStr
  markerNames : List BStr
  nbQdotV : Nat
  nbQddotV : Nat
  nbTauV : Nat
  nbQuatV : Nat
  nbRootV : Nat
  nbSegmentV : Nat
  nbMusclesV : Nat
  nbContactsV : Nat
  nbDofV : Nat
  nbRigidContactsV : Nat
  rigidContactAxisIdx : Nat → List Nat
  nbSoftContactsV : Nat
  softContactForceAtOrigin : Nat → VecN → VecN → (Fin 6 → Scalar)
  markersVelocityE : VecN → VecN → Bool → List Vec3
  globalJCSE : VecN → Nat → RT
  angularMomentumE : VecN → VecN → Bool → Vec3
  segmentAngularVelocityE : VecN → VecN → Nat → Bool → Vec3
  markersVar : List EngArg → List Vec3
  markerVar : List EngArg → Vec3
  ForwardDynamicsE : VecN → VecN → VecN → Option VecN → Option (List VecN) →
    Except EngineErr VecN
  InverseDynamicsE : VecN → VecN → VecN → Option VecN → Option (List VecN) →
    Except EngineErr VecN
  torqueE : VecN → VecN → VecN → Except EngineErr VecN
  activationDotE : VecN → Except EngineErr VecN
  CoMF : VecN → Bool → Except EngineErr Vec3
  CoMdotF : VecN → VecN → Bool → Except EngineErr Vec3
  CoMddotF : VecN → VecN → VecN → Bool → Except EngineErr Vec3
  angularMomentumF : VecN → VecN → Bool → Except EngineErr Vec3
  computeQdotF : VecN → VecN → Scalar → Except EngineErr VecN
  segmentAngularVelocityF : VecN → VecN → Nat → Bool → Except EngineErr Vec3
  FDFreeFloatingBaseF : VecN → VecN → VecN → Except EngineErr VecN
  FDConstraintsDirectF : List EngArg → Except EngineErr VecN
  contactForcesFDCDF : VecN → VecN → VecN → Option VecN →
    Except EngineErr VecN
  impulsesDirectF : VecN → VecN → Except EngineErr VecN
  muscularJointTorqueF : VecN → VecN → VecN → Except EngineErr VecN
  markersVarF : List EngArg → Except EngineErr (List Vec3)
  markerVarF : List EngArg → Except EngineErr Vec3
  markersVelocityF : VecN → VecN → Bool → Except EngineErr (List Vec3)
  globalJCSF : VecN → Nat → Except EngineErr RT
  torqueMaxF : List EngArg → Except EngineErr (VecN × VecN)
  rigidContactAccelerationF : VecN → VecN → VecN → Option Nat → Bool →
    Except EngineErr VecN
  softContactForceF : Nat → VecN → VecN → Except EngineErr (Fin 6 → Scalar)

/-- Modelled from the spec: the engine's `nbQ()` count reads the size of
the model's position-dof name collection (spec §3: counts and name
sequences expose the same model-owned descriptor collections). -/
def ModelStruct.nbQ (s : ModelStruct) : Nat := s.dofNames.length

/-- Modelled from the spec: the engine's `nameDof()` returns the model's
ordered dof-name collection. -/
def ModelStruct.nameDof (s : ModelStruct) : List BStr := s.dofNames

/-- Modelled from the spec: the engine's `nbMarkers()` count reads the
size of the model's marker-name collection. -/
def ModelStruct.nbMarkers (s : ModelStruct) : Nat := s.markerNames.length

/-- Modelled from the spec: the engine's `markerNames()` returns the
model's ordered marker-name collection. -/
def ModelStruct.markerNamesE (s : ModelStruct) : List BStr := s.markerNames

/-- Engine count accessors reading stored structure fields. -/
def ModelStruct.nbQdot (s : ModelStruct) : Nat := s.nbQdotV

def ModelStruct.nbQddot (s : ModelStruct) : Nat := s.nbQddotV

def ModelStruct.nbGeneralizedTorque (s : ModelStruct) : Nat := s.nbTauV

def ModelStruct.nbQuat (s : ModelStruct) : Nat := s.nbQuatV

def ModelStruct.nbRoot (s : ModelStruct) : Nat := s.nbRootV

def ModelStruct.nbSegment (s : ModelStruct) : Nat := s.nbSegmentV

def ModelStruct.nbMuscles (s : ModelStruct) : Nat := s.nbMusclesV

def ModelStruct.nbContacts (s : ModelStruct) : Nat := s.nbContactsV

def ModelStruct.nbDof (s : ModelStruct) : Nat := s.nbDofV

def ModelStruct.nbRigidContacts (s : ModelStruct) : Nat := s.nbRigidContactsV

def ModelStruct.nbSoftContacts (s : ModelStruct) : Nat := s.nbSoftContactsV

/-- Modelled from the spec: the engine-side `biorbd.marker_index` utility
(engine code, not repository source): the position of `name` in the
model's ordered marker-name collection. -/
def biorbdMarkerIndex (s : ModelStruct) (name : String) : Nat :=
  (s.markerNamesE.map BStr.to_string).indexOf name

/-- The wrapped model handle: fixed structure plus the mutable kinematics
cache that dynamics queries may update (spec §3). -/
structure KinCache where
  data : List Scalar

/-- The adapter's wrapped native model (`self.model`). -/
structure Model where
  s : ModelStruct
  cache : KinCache

/-! ## Adapter operations, translated from `biorbd_model.py` -/

/-- `nb_q` property: `self.model.nbQ()`. -/
def nb_q (m : Model) : Nat := m.s.nbQ

/-- `nb_qdot` property: `self.model.nbQdot()`. -/
def nb_qdot (m : Model) : Nat := m.s.nbQdot

/-- `nb_qddot` property: `self.model.nbQddot()`. -/
def nb_qddot (m : Model) : Nat := m.s.nbQddot

/-- `nb_tau` property: `self.model.nbGeneralizedTorque()`. -/
def nb_tau (m : Model) : Nat := m.s.nbGeneralizedTorque

/-- `nb_quaternions` property: `self.model.nbQuat()`. -/
def nb_quaternions (m : Model) : Nat := m.s.nbQuat

/-- `nb_root` property: `self.model.nbRoot()`. -/
def nb_root (m : Model) : Nat := m.s.nbRoot

/-- `nb_segments` property: `self.model.nbSegment()`. -/
def nb_segments (m : Model) : Nat := m.s.nbSegment

/-- `nb_markers` property: `self.model.nbMarkers()`. -/
def nb_markers (m : Model) : Nat := m.s.nbMarkers

/-- `nb_muscles` property: `self.model.nbMuscles()`. -/
def nb_muscles (m : Model) : Nat := m.s.nbMuscles

/-- `nb_contacts` property: `self.model.nbContacts()`. -/
def nb_contacts (m : Model) : Nat := m.s.nbContacts

/-- `nb_rigid_contacts` property: `self.model.nbRigidContacts()`. -/
def nb_rigid_contacts (m : Model) : Nat := m.s.nbRigidContacts

/-- `nb_soft_contacts` property: `self.model.nbSoftContacts()`. -/
def nb_soft_contacts (m : Model) : Nat := m.s.nbSoftContacts

/-- `nb_dof` property: `self.model.nbDof()`. -/
def nb_dof (m : Model) : Nat := m.s.nbDof

/-- Invocation of a count accessor as a call on the wrapped model: the
engine method reads only the fixed structure (spec §4.1, counts are pure
reads), so the post-call model state is returned unchanged. -/
def countCall (f : Model → Nat) (m : Model) : Nat × Model := (f m, m)

/-- `name_dof` property:
`tuple(s.to_string() for s in self.model.nameDof())`. -/
def name_dof (m : Model) : List String := m.s.nameDof.map BStr.to_string

/-- `marker_names` property:
`tuple(s.to_string() for s in self.model.markerNames())`. -/
def marker_names (m : Model) : List String :=
  m.s.markerNamesE.map BStr.to_string

/-- `marker_index`: `biorbd.marker_index(self.model, name)`. -/
def marker_index (m : Model) (name : String) : Nat :=
  biorbdMarkerIndex m.s name

/-- `angular_momentum`: returns
`self.model.angularMomentum(Q, Qdot, updateKin)` with no `to_mx()`
conversion, hence a raw native engine value. -/
def angular_momentum (m : Model) (q qdot : VecN) (updateKin : Bool) :
    Boxed Vec3 :=
  Boxed.native (m.s.angularMomentumE q qdot updateKin)

/-- `segment_angular_velocity`: returns
`self.model.segmentAngularVelocity(Q, Qdot, idx, updateKin)` with no
`to_mx()` conversion, hence a raw native engine value. -/
def segment_angular_velocity (m : Model) (q qdot : VecN) (idx : Nat)
    (updateKin : Bool) : Boxed Vec3 :=
  Boxed.native (m.s.segmentAngularVelocityE q qdot idx updateKin)

/-- Result of the variadic `markers(*args)` adapter method: either the raw
bound method `self.model.markers` (zero arguments) or the list of engine
markers converted with `to_mx()`. -/
inductive MarkersResult where
  | method
  | values : List (Boxed Vec3) → MarkersResult

/-- `markers(*args)`: `self.model.markers` when `len(args) == 0`, else
`[m.to_mx() for m in self.model.markers(*args)]`. -/
def markers (m : Model) (args : List EngArg) : MarkersResult :=
  if args.length = 0 then .method
  else .values ((m.s.markersVar args).map Boxed.mx)

/-- Whether a `markers` result is a list of `MX` values. -/
def MarkersResult.allMX : MarkersResult → Bool
  | .method => false
  | .values l => l.all Boxed.isMX

/-- Result of the variadic `marker(*args)` adapter method: either the raw
bound method `self.model.marker`, or the raw engine marker returned by
`self.model.marker(*args)` (no `to_mx()` in the source). -/
inductive MarkerResult where
  | method
  | queried : Boxed Vec3 → MarkerResult

/-- `marker(*args)`: `self.model.marker(*args)` when `len(args) > 1`, else
the bound method `self.model.marker`. -/
def marker (m : Model) (args : List EngArg) : MarkerResult :=
  if args.length > 1 then .queried (Boxed.native (m.s.markerVar args))
  else .method

/-- Whether a `marker` result is an engine query returning an `MX`
value. -/
def MarkerResult.queriedMX : MarkerResult → Bool
  | .method => false
  | .queried b => b.isMX

/-- `global_homogeneous_matrices`: `self.model.globalJCS(*args)`. -/
def global_homogeneous_matrices (m : Model) (q : VecN) (j : Nat) : RT :=
  m.s.globalJCSE q j

/-- `marker_velocities(q, qdot, update_kin, reference_jcs)`.  With no
reference frame the source returns `horzcat` of the engine marker
velocities converted with `to_mx()`.  Otherwise `jcs_t` is the transpose
of the frame's global homogeneous transform (the `biorbd.RotoTrans()`
alternative of the source's conditional expression is unreachable there,
being guarded by `reference_jcs is None` inside the not-None branch) and
the comprehension filter `if m.applyRT(jcs_t) is None` applies the
transform in place — `applyRT` always returns `None` — so every marker is
kept, transformed.  `horzcat` and `to_mx` are modelled as the list of
column vectors. -/
def marker_velocities (m : Model) (q qdot : VecN) (update_kin : Bool)
    (reference_jcs : Option Nat) : List Vec3 :=
  match reference_jcs with
  | none => m.s.markersVelocityE q qdot update_kin
  | some j =>
    let jcs_t := RT.transposeRT (global_homogeneous_matrices m q j)
    (m.s.markersVelocityE q qdot update_kin).map (applyRT jcs_t)

/-- Python slice assignment `l[s : s + len(b)] = b` on a list. -/
def setSlice : List Scalar → Nat → List Scalar → List Scalar
  | l, _, [] => l
  | [], _, _ => []
  | _ :: xs, 0, b :: bs => b :: setSlice xs 0 bs
  | x :: xs, s + 1, b => x :: setSlice xs s b

/-- The loop of `soft_contact_forces`: for each soft-contact index `i` in
order, assign the 6-component wrench into rows `i*6 .. i*6+5` of the
accumulator. -/
def scfLoop (wrench : Nat → List Scalar) : List Nat → List Scalar →
    List Scalar
  | [], acc => acc
  | i :: rest, acc => scfLoop wrench rest (setSlice acc (i * 6) (wrench i))

/-- The 6-component wrench of soft contact `i` at the origin:
`biorbd.SoftContactSphere(self.soft_contact(i_sc))
  .computeForceAtOrigin(self.model, q, qdot).to_mx()`. -/
def softWrench (m : Model) (q qdot : VecN) (i : Nat) : List Scalar :=
  List.ofFn (m.s.softContactForceAtOrigin i q qdot)

/-- `soft_contact_forces(q, qdot)`: starts from
`MX.zeros(self.nb_soft_contacts * 6, 1)` and assigns each soft contact's
wrench block in contact index order; the column vector is modelled as the
list of its entries. -/
def soft_contact_forces (m : Model) (q qdot : VecN) : List Scalar :=
  scfLoop (softWrench m q qdot) (List.range (nb_soft_contacts m))
    (List.replicate (nb_soft_contacts m * 6) 0)

/-- The loop of `reshape_fext_to_fcontact`: for each remaining rigid
contact `ii`, with `count` forces consumed so far, take
`n_f_contact = len(self.model.rigidContactAxisIdx(ii))`, slice
`fext[[i + count for i in range(n_f_contact)]]`, append it, and advance
`count`. -/
def reshapeLoop (axes : Nat → List Nat) (fext : List Scalar) :
    List Nat → Nat → List (List Scalar)
  | [], _ => []
  | ii :: rest, count =>
    ((List.range (axes ii).length).map (fun i => i + count)).map
        (fun i => fext.getD i 0) ::
      reshapeLoop axes fext rest (count + (axes ii).length)

/-- `reshape_fext_to_fcontact(fext)`: walks rigid contacts `0 ..
self.nb_rigid_contacts - 1` in order, slicing contiguous axis-count blocks
of `fext` into a vector-of-vectors. -/
def reshape_fext_to_fcontact (m : Model) (fext : List Scalar) :
    List (List Scalar) :=
  reshapeLoop m.s.rigidContactAxisIdx fext
    (List.range (nb_rigid_contacts m)) 0

/-- Sum of axis counts of the rigid contacts named by `l`. -/
def axisSumL (axes : Nat → List Nat) (l : List Nat) : Nat :=
  (l.map (fun ii => (axes ii).length)).sum

/-- Sum of per-rigid-contact axis counts of a model. -/
def axisSum (m : Model) : Nat :=
  axisSumL m.s.rigidContactAxisIdx (List.range (nb_rigid_contacts m))

/-- `forward_dynamics`: `self.model.ForwardDynamics(q, qdot, tau, fext,
f_contacts).to_mx()`; an engine failure propagates through `.map`. -/
def forward_dynamics (m : Model) (q qdot tau : VecN) (fext : Option VecN)
    (f_contacts : Option (List VecN)) : Except EngineErr (Boxed VecN) :=
  (m.s.ForwardDynamicsE q qdot tau fext f_contacts).map Boxed.mx

/-- `inverse_dynamics`: `self.model.InverseDynamics(q, qdot, qddot, f_ext,
f_contacts).to_mx()`. -/
def inverse_dynamics (m : Model) (q qdot qddot : VecN) (f_ext : Option VecN)
    (f_contacts : Option (List VecN)) : Except EngineErr (Boxed VecN) :=
  (m.s.InverseDynamicsE q qdot qddot f_ext f_contacts).map Boxed.mx

/-- `torque`: `self.model.torque(tau_activations, q, qdot).to_mx()`. -/
def torque (m : Model) (tau_activations q qdot : VecN) :
    Except EngineErr (Boxed VecN) :=
  (m.s.torqueE tau_activations q qdot).map Boxed.mx

/-- `muscle_activation_dot`:
`self.model.activationDot(muscle_states).to_mx()`. -/
def muscle_activation_dot (m : Model) (muscle_states : VecN) :
    Except EngineErr (Boxed VecN) :=
  (m.s.activationDotE muscle_states).map Boxed.mx

/-- `center_of_mass`: `self.model.CoM(q, updateKin).to_mx()`. -/
def center_of_mass (m : Model) (q : VecN) (updateKin : Bool) :
    Except EngineErr (Boxed Vec3) :=
  (m.s.CoMF q updateKin).map Boxed.mx

/-- `center_of_mass_velocity`:
`self.model.CoMdot(q, qdot, updateKin).to_mx()`. -/
def center_of_mass_velocity (m : Model) (q qdot : VecN) (updateKin : Bool) :
    Except EngineErr (Boxed Vec3) :=
  (m.s.CoMdotF q qdot updateKin).map Boxed.mx

/-- `center_of_mass_acceleration`:
`self.model.CoMddot(q, qdot, qddot, updateKin).to_mx()`. -/
def center_of_mass_acceleration (m : Model) (q qdot qddot : VecN)
    (updateKin : Bool) : Except EngineErr (Boxed Vec3) :=
  (m.s.CoMddotF q qdot qddot updateKin).map Boxed.mx

/-- `reshape_qdot`: `self.model.computeQdot(q, qdot, k_stab).to_mx()`. -/
def reshape_qdot (m : Model) (q qdot : VecN) (k_stab : Scalar) :
    Except EngineErr (Boxed VecN) :=
  (m.s.computeQdotF q qdot k_stab).map Boxed.mx

/-- `forward_dynamics_free_floating_base`:
`self.model.ForwardDynamicsFreeFloatingBase(q, qdot, qddot_joints)
.to_mx()`. -/
def forward_dynamics_free_floating_base (m : Model)
    (q qdot qddot_joints : VecN) : Except EngineErr (Boxed VecN) :=
  (m.s.FDFreeFloatingBaseF q qdot qddot_joints).map Boxed.mx

/-- `constrained_forward_dynamics`:
`self.model.ForwardDynamicsConstraintsDirect(*args).to_mx()`. -/
def constrained_forward_dynamics (m : Model) (args : List EngArg) :
    Except EngineErr (Boxed VecN) :=
  (m.s.FDConstraintsDirectF args).map Boxed.mx

/-- `contact_forces_from_constrained_forward_dynamics`:
`self.model.ContactForcesFromForwardDynamicsConstraintsDirect(q, qdot,
tau, fext).to_mx()`. -/
def contact_forces_from_constrained_forward_dynamics (m : Model)
    (q qdot tau : VecN) (fext : Option VecN) :
    Except EngineErr (Boxed VecN) :=
  (m.s.contactForcesFDCDF q qdot tau fext).map Boxed.mx

/-- `qdot_from_impact`:
`self.model.ComputeConstraintImpulsesDirect(q, qdot_pre_impact)
.to_mx()`. -/
def qdot_from_impact (m : Model) (q qdot_pre_impact : VecN) :
    Except EngineErr (Boxed VecN) :=
  (m.s.impulsesDirectF q qdot_pre_impact).map Boxed.mx

/-- `muscle_joint_torque`:
`self.model.muscularJointTorque(muscle_states, q, qdot).to_mx()`. -/
def muscle_joint_torque (m : Model) (muscle_states q qdot : VecN) :
    Except EngineErr (Boxed VecN) :=
  (m.s.muscularJointTorqueF muscle_states q qdot).map Boxed.mx

/-- `tau_max(*args)`: unpacks `self.model.torqueMax(*args)` and returns
`(torque_max.to_mx(), torque_min.to_mx())`. -/
def tau_max (m : Model) (args : List EngArg) :
    Except EngineErr (Boxed VecN × Boxed VecN) :=
  (m.s.torqueMaxF args).map (fun p => (Boxed.mx p.1, Boxed.mx p.2))

/-- `rigid_contact_acceleration`:
`self.model.rigidContactAcceleration(q, qdot, qddot, idx, updateKin)
.to_mx()`. -/
def rigid_contact_acceleration (m : Model) (q qdot qddot : VecN)
    (idx : Option Nat) (updateKin : Bool) : Except EngineErr (Boxed VecN) :=
  (m.s.rigidContactAccelerationF q qdot qddot idx updateKin).map Boxed.mx

/-- `angular_momentum` over the engine's fallible call interface: the raw
engine result (no `to_mx()` in the source) or the engine's error. -/
def angular_momentumF (m : Model) (q qdot : VecN) (updateKin : Bool) :
    Except EngineErr (Boxed Vec3) :=
  (m.s.angularMomentumF q qdot updateKin).map Boxed.native

/-- `segment_angular_velocity` over the engine's fallible call interface:
the raw engine result (no `to_mx()` in the source) or the engine's
error. -/
def segment_angular_velocityF (m : Model) (q qdot : VecN) (idx : Nat)
    (updateKin : Bool) : Except EngineErr (Boxed Vec3) :=
  (m.s.segmentAngularVelocityF q qdot idx updateKin).map Boxed.native

/-- `global_homogeneous_matrices` over the engine's fallible call
interface: the source returns `self.model.globalJCS(*args)` with no
conversion at all, so the engine result or error passes straight
through. -/
def global_homogeneous_matricesF (m : Model) (q : VecN) (j : Nat) :
    Except EngineErr RT :=
  m.s.globalJCSF q j

/-- `markers(*args)` over the engine's fallible call interface: with zero
arguments no engine call is made (raw bound method), otherwise the engine
marker list is converted element-wise with `to_mx()`. -/
def markersF (m : Model) (args : List EngArg) :
    Except EngineErr MarkersResult :=
  if args.length = 0 then .ok .method
  else (m.s.markersVarF args).map (fun l => .values (l.map Boxed.mx))

/-- `marker(*args)` over the engine's fallible call interface: with at
most one argument no engine call is made (raw bound method), otherwise
the raw engine marker (no `to_mx()`) or the engine's error. -/
def markerF (m : Model) (args : List EngArg) :
    Except EngineErr MarkerResult :=
  if args.length > 1 then
    (m.s.markerVarF args).map (fun v => .queried (Boxed.native v))
  else .ok .method

/-- `marker_velocities` over the engine's fallible call interface: the
no-frame branch is the engine's `markersVelocity` call; the frame branch
first queries the frame's global transform, then the marker velocities,
and applies the transposed transform to every marker. -/
def marker_velocitiesF (m : Model) (q qdot : VecN) (update_kin : Bool)
    (reference_jcs : Option Nat) : Except EngineErr (List Vec3) :=
  match reference_jcs with
  | none => m.s.markersVelocityF q qdot update_kin
  | some j =>
    (m.s.globalJCSF q j).bind (fun T =>
      (m.s.markersVelocityF q qdot update_kin).map (fun mv =>
        mv.map (applyRT (RT.transposeRT T))))

/-- The loop of `soft_contact_forces` over the engine's fallible call
interface: each soft contact's wrench query may raise, aborting the
loop with the engine's error. -/
def scfLoopF (w : Nat → Except EngineErr (List Scalar)) :
    List Nat → List Scalar → Except EngineErr (List Scalar)
  | [], acc => .ok acc
  | i :: rest, acc =>
    match w i with
    | .error e => .error e
    | .ok b => scfLoopF w rest (setSlice acc (i * 6) b)

/-- `soft_contact_forces` over the engine's fallible call interface. -/
def soft_contact_forcesF (m : Model) (q qdot : VecN) :
    Except EngineErr (List Scalar) :=
  scfLoopF (fun i => (m.s.softContactForceF i q qdot).map List.ofFn)
    (List.range (nb_soft_contacts m))
    (List.replicate (nb_soft_contacts m * 6) 0)

/-- Whether an engine/adapter call succeeded. -/
def ExceptOk {ε α : Type} : Except ε α → Bool
  | .ok _ => true
  | .error _ => false

/-- Transparent error propagation from an engine call to the adapter call
wrapping it: the adapter call succeeds exactly when the engine call does,
and any engine error is surfaced unchanged. -/
def Passthrough {α β : Type} (adapter : Except EngineErr α)
    (engine : Except EngineErr β) (err : EngineErr) : Prop :=
  ExceptOk adapter = ExceptOk engine ∧
  (adapter = Except.error err ↔ engine = Except.error err)

/-! ## Concrete models used to witness the theorems -/

/-- A small concrete engine structure: three dofs, two markers, two rigid
contacts with axis counts 1 and 2, two soft contacts. -/
def demoStruct : ModelStruct where
  dofNames := [⟨"dofX"⟩, ⟨"dofY"⟩, ⟨"dofRZ"⟩]
  markerNames := [⟨"m0"⟩, ⟨"m1"⟩]
  nbQdotV := 3
  nbQddotV := 3
  nbTauV := 3
  nbQuatV := 0
  nbRootV := 1
  nbSegmentV := 2
  nbMusclesV := 0
  nbContactsV := 3
  nbDofV := 3
  nbRigidContactsV := 2
  rigidContactAxisIdx := fun ii => if ii = 0 then [2] else [0, 2]
  nbSoftContactsV := 2
  softContactForceAtOrigin := fun i _ _ k => ((i * 10 + k.val : Nat) : ℚ)
  markersVelocityE := fun _ _ _ => [fun _ => 1, fun _ => 2]
  globalJCSE := fun _ _ => idRT
  angularMomentumE := fun _ _ _ => fun _ => 5
  segmentAngularVelocityE := fun _ _ _ _ => fun _ => 6
  markersVar := fun _ => [fun _ => 3]
  markerVar := fun _ => fun _ => 4
  ForwardDynamicsE := fun _ _ _ _ _ => .ok [0, 0, 0]
  InverseDynamicsE := fun _ _ _ _ _ => .ok [0, 0, 0]
  torqueE := fun _ _ _ => .ok [0, 0, 0]
  activationDotE := fun _ => .ok []
  CoMF := fun _ _ => .ok (fun _ => 0)
  CoMdotF := fun _ _ _ => .ok (fun _ => 0)
  CoMddotF := fun _ _ _ _ => .ok (fun _ => 0)
  angularMomentumF := fun _ _ _ => .ok (fun _ => 5)
  computeQdotF := fun _ _ _ => .ok [0, 0, 0]
  segmentAngularVelocityF := fun _ _ _ _ => .ok (fun _ => 6)
  FDFreeFloatingBaseF := fun _ _ _ => .ok [0, 0]
  FDConstraintsDirectF := fun _ => .ok [0, 0, 0]
  contactForcesFDCDF := fun _ _ _ _ => .ok [0, 0, 0]
  impulsesDirectF := fun _ _ => .ok [0, 0, 0]
  muscularJointTorqueF := fun _ _ _ => .ok [0, 0, 0]
  markersVarF := fun _ => .ok [fun _ => 3]
  markerVarF := fun _ => .ok (fun _ => 4)
  markersVelocityF := fun _ _ _ => .ok [fun _ => 1, fun _ => 2]
  globalJCSF := fun _ _ => .ok idRT
  torqueMaxF := fun _ => .ok ([9, 9, 9], [1, 1, 1])
  rigidContactAccelerationF := fun _ _ _ _ _ => .ok [0, 0, 0]
  softContactForceF := fun i _ _ => .ok (fun k => ((i * 10 + k.val : Nat) : ℚ))

/-- The demo model handle. -/
def demoModel : Model := ⟨demoStruct, ⟨[]⟩⟩

/-- A demo model with no soft contacts. -/
def zeroSoftModel : Model :=
  ⟨{ demoStruct with nbSoftContactsV := 0 }, ⟨[]⟩⟩

/-- A demo model some of whose engine calls raise, exercising the error
paths of the adapter. -/
def errModel : Model :=
  ⟨{ demoStruct with
      softContactForceF := fun _ _ _ => .error "boom",
      markersVelocityF := fun _ _ _ => .error "boom",
      ForwardDynamicsE := fun _ _ _ _ _ => .error "boom" }, ⟨[]⟩⟩

/-! ## Helper lemmas -/

theorem reshapeLoop_length (axes : Nat → List Nat) (fext : List Scalar) :
    ∀ (l : List Nat) (c : Nat), (reshapeLoop axes fext l c).length = l.length
  | [], _ => rfl
  | _ :: rest, c => by
    simp [reshapeLoop, reshapeLoop_length axes fext rest]

theorem reshapeLoop_getD_length (axes : Nat → List Nat) (fext : List Scalar) :
    ∀ (l : List Nat) (c i : Nat), i < l.length →
      ((reshapeLoop axes fext l c).getD i []).length =
        (axes (l.getD i 0)).length
  | [], _, i, h => by simp at h
  | ii :: rest, c, 0, _ => by simp [reshapeLoop]
  | ii :: rest, c, i + 1, h => by
    have h' : i < rest.length := by simpa using h
    simpa [reshapeLoop] using
      reshapeLoop_getD_length axes fext rest (c + (axes ii).length) i h'

theorem reshapeLoop_flatten (axes : Nat → List Nat) (fext : List Scalar) :
    ∀ (l : List Nat) (c : Nat),
      (reshapeLoop axes fext l c).flatten =
        (List.range (axisSumL axes l)).map (fun j => fext.getD (c + j) 0)
  | [], c => by simp [reshapeLoop, axisSumL]
  | ii :: rest, c => by
    have ih := reshapeLoop_flatten axes fext rest (c + (axes ii).length)
    have hsum : axisSumL axes (ii :: rest) =
        (axes ii).length + axisSumL axes rest := by
      simp [axisSumL]
    rw [hsum, List.range_add]
    simp only [reshapeLoop, List.flatten_cons, ih, List.map_append,
      List.map_map]
    congr 1
    · apply List.map_congr_left
      intro i _
      simp [Nat.add_comm]
    · apply List.map_congr_left
      intro i _
      simp [Nat.add_assoc]

theorem map_getD_range_eq_self (l : List Scalar) :
    (List.range l.length).map (fun j => l.getD j 0) = l := by
  apply List.ext_getElem
  · simp
  · intro i h1 h2
    simp only [List.getElem_map, List.getElem_range]
    exact List.getD_eq_getElem _ _ h2

theorem reshapeLoop_congr (axes : Nat → List Nat) (fext fext' : List Scalar) :
    ∀ (l : List Nat) (c : Nat),
      (∀ j, c ≤ j → j < c + axisSumL axes l →
        fext.getD j 0 = fext'.getD j 0) →
      reshapeLoop axes fext l c = reshapeLoop axes fext' l c
  | [], _, _ => rfl
  | ii :: rest, c, h => by
    have hsum : axisSumL axes (ii :: rest) =
        (axes ii).length + axisSumL axes rest := by
      simp [axisSumL]
    simp only [reshapeLoop]
    congr 1
    · apply List.map_congr_left
      intro x hx
      simp only [List.mem_map, List.mem_range] at hx
      obtain ⟨i, hi, rfl⟩ := hx
      exact h (i + c) (by omega) (by omega)
    · exact reshapeLoop_congr axes fext fext' rest (c + (axes ii).length)
        (fun j hj1 hj2 => h j (by omega) (by omega))

/-- C1: for a flat force vector whose length is the sum of per-rigid-contact
axis counts, `reshape_fext_to_fcontact` yields one sub-vector per rigid
contact in contact index order, sub-vector `i` having contact `i`'s axis
count as its length, and the concatenation of the sub-vectors in order
reconstructs the input vector exactly (contiguous, non-overlapping
slices). -/
theorem C1_reshape_partition (m : Model) (fext : List Scalar)
    (h : fext.length = axisSum m) :
    (reshape_fext_to_fcontact m fext).length = nb_rigid_contacts m ∧
    (∀ i, i < nb_rigid_contacts m →
      ((reshape_fext_to_fcontact m fext).getD i []).length =
        (m.s.rigidContactAxisIdx i).length) ∧
    (reshape_fext_to_fcontact m fext).flatten = fext := by
  refine ⟨?_, ?_, ?_⟩
  · simp [reshape_fext_to_fcontact, reshapeLoop_length]
  · intro i hi
    have hi' : i < (List.range (nb_rigid_contacts m)).length := by
      simpa using hi
    have := reshapeLoop_getD_length m.s.rigidContactAxisIdx fext
      (List.range (nb_rigid_contacts m)) 0 i hi'
    rwa [List.getD_eq_getElem _ _ hi', List.getElem_range] at this
  · rw [reshape_fext_to_fcontact, reshapeLoop_flatten]
    simp only [Nat.zero_add]
    rw [show axisSumL m.s.rigidContactAxisIdx
        (List.range (nb_rigid_contacts m)) = axisSum m from rfl, ← h]
    exact map_getD_range_eq_self fext

/-- C1 witness: the partition property evaluated on the demo model (axis
counts 1 and 2) and the flat vector `[3, 4, 5]`. -/
theorem C1_reshape_partition_witness :
    ([3, 4, 5] : List Scalar).length = axisSum demoModel ∧
    (reshape_fext_to_fcontact demoModel [3, 4, 5]).flatten = [3, 4, 5] :=
  ⟨by decide, (C1_reshape_partition demoModel [3, 4, 5] (by decide)).2.2⟩

/-- C10: `reshape_fext_to_fcontact` reads only the entries of `fext` at
indices below the sum of per-contact axis counts: on any longer vector the
trailing entries are ignored and the result equals the result on the
truncation to that sum. -/
theorem C10_reshape_ignores_trailing (m : Model) (fext : List Scalar)
    (h : axisSum m ≤ fext.length) :
    reshape_fext_to_fcontact m fext =
      reshape_fext_to_fcontact m (fext.take (axisSum m)) := by
  unfold reshape_fext_to_fcontact
  apply reshapeLoop_congr
  intro j hj0 hj
  have hj' : j < axisSum m := by simpa using hj
  have h1 : fext.getD j 0 = (fext.take (axisSum m)).getD j 0 := by
    rw [List.getD_eq_getElem?_getD, List.getD_eq_getElem?_getD,
      List.getElem?_take, if_pos hj']
  exact h1

/-- C10 witness: on the demo model (axis-count sum 3) the vector
`[3, 4, 5, 99]` reshapes like its truncation `[3, 4, 5]`; the trailing
entry is ignored. -/
theorem C10_reshape_ignores_trailing_witness :
    axisSum demoModel ≤ ([3, 4, 5, 99] : List Scalar).length ∧
    reshape_fext_to_fcontact demoModel [3, 4, 5, 99] =
      reshape_fext_to_fcontact demoModel
        (([3, 4, 5, 99] : List Scalar).take (axisSum demoModel)) :=
  ⟨by decide, C10_reshape_ignores_trailing demoModel [3, 4, 5, 99]
    (by decide)⟩

theorem setSlice_length : ∀ (l : List Scalar) (s : Nat) (b : List Scalar),
    (setSlice l s b).length = l.length
  | _, _, [] => by simp [setSlice]
  | [], _, _ :: _ => rfl
  | _ :: xs, 0, _ :: bs => by simp [setSlice, setSlice_length xs 0 bs]
  | _ :: xs, s + 1, b :: bs => by
    simp [setSlice, setSlice_length xs s (b :: bs)]

theorem setSlice_getD_lt : ∀ (l : List Scalar) (s : Nat) (b : List Scalar)
    (j : Nat) (d : Scalar), j < s →
    (setSlice l s b).getD j d = l.getD j d
  | _, _, [], _, _, _ => by simp [setSlice]
  | [], _, _ :: _, _, _, _ => rfl
  | _ :: _, 0, _ :: _, _, _, h => by omega
  | _ :: _, _ + 1, _ :: _, 0, _, _ => by simp [setSlice]
  | x :: xs, s + 1, b :: bs, j + 1, d, h => by
    simpa [setSlice] using setSlice_getD_lt xs s (b :: bs) j d (by omega)

theorem setSlice_getD_ge : ∀ (l : List Scalar) (s : Nat) (b : List Scalar)
    (j : Nat) (d : Scalar), s + b.length ≤ j →
    (setSlice l s b).getD j d = l.getD j d
  | _, _, [], _, _, _ => by simp [setSlice]
  | [], _, _ :: _, _, _, _ => rfl
  | _ :: _, 0, _ :: _, 0, _, h => by simp at h
  | x :: xs, 0, b :: bs, j + 1, d, h => by
    simpa [setSlice] using setSlice_getD_ge xs 0 bs j d (by simp at h; omega)
  | _ :: _, _ + 1, _ :: _, 0, _, h => by omega
  | x :: xs, s + 1, b :: bs, j + 1, d, h => by
    simpa [setSlice] using setSlice_getD_ge xs s (b :: bs) j d (by
      simp only [List.length_cons] at h ⊢; omega)

theorem setSlice_getD_mid : ∀ (l : List Scalar) (s : Nat) (b : List Scalar)
    (j : Nat) (d : Scalar), s ≤ j → j < s + b.length →
    s + b.length ≤ l.length →
    (setSlice l s b).getD j d = b.getD (j - s) d
  | _, s, [], j, _, h1, h2, _ => by simp only [List.length_nil] at h2; omega
  | [], s, _ :: bs, j, _, _, _, hl => by simp at hl
  | _ :: xs, 0, b :: bs, 0, d, _, _, _ => by simp [setSlice]
  | _ :: xs, 0, b :: bs, j + 1, d, _, h2, hl => by
    have := setSlice_getD_mid xs 0 bs j d (by omega)
      (by simp at h2; omega) (by simp at hl; omega)
    simpa [setSlice] using this
  | _ :: xs, s + 1, b :: bs, 0, d, h1, _, _ => by omega
  | _ :: xs, s + 1, b :: bs, j + 1, d, h1, h2, hl => by
    have := setSlice_getD_mid xs s (b :: bs) j d (by omega)
      (by simp at h2 ⊢; omega) (by simp at hl ⊢; omega)
    simpa [setSlice] using this

theorem scfLoop_length (w : Nat → List Scalar) :
    ∀ (l : List Nat) (acc : List Scalar),
      (scfLoop w l acc).length = acc.length
  | [], _ => rfl
  | i :: rest, acc => by
    simp [scfLoop, scfLoop_length w rest, setSlice_length]

theorem scfLoop_append (w : Nat → List Scalar) :
    ∀ (l1 l2 : List Nat) (acc : List Scalar),
      scfLoop w (l1 ++ l2) acc = scfLoop w l2 (scfLoop w l1 acc)
  | [], _, _ => rfl
  | i :: rest, l2, acc => by
    simp [scfLoop, scfLoop_append w rest l2]

theorem scfLoop_range_getD (w : Nat → List Scalar)
    (hw : ∀ i, (w i).length = 6) :
    ∀ (n : Nat) (acc : List Scalar), n * 6 ≤ acc.length →
    ∀ (i k : Nat) (d : Scalar), i < n → k < 6 →
      (scfLoop w (List.range n) acc).getD (i * 6 + k) d = (w i).getD k d
  | 0, _, _, _, _, _, hi, _ => by omega
  | n + 1, acc, hacc, i, k, d, hi, hk => by
    rw [List.range_succ, scfLoop_append]
    have hlen : (scfLoop w (List.range n) acc).length = acc.length :=
      scfLoop_length w _ acc
    rcases Nat.lt_or_ge i n with hin | hin
    · rw [show scfLoop w [n] (scfLoop w (List.range n) acc) =
          setSlice (scfLoop w (List.range n) acc) (n * 6) (w n) from rfl]
      rw [setSlice_getD_lt _ _ _ _ _ (by omega)]
      exact scfLoop_range_getD w hw n acc (by omega) i k d hin hk
    · have hieq : i = n := by omega
      subst hieq
      rw [show scfLoop w [i] (scfLoop w (List.range i) acc) =
          setSlice (scfLoop w (List.range i) acc) (i * 6) (w i) from rfl]
      rw [setSlice_getD_mid _ _ _ _ _ (by omega) (by rw [hw]; omega)
        (by rw [hw, hlen]; omega)]
      congr 1
      omega

/-- C4: `soft_contact_forces` returns a column vector of `6 *
nb_soft_contacts` entries; rows `6*i .. 6*i+5` hold the 6-component wrench
computed at the origin of soft contact `i`, blocks in contact index order;
with no soft contacts the result is the zero (empty) vector. -/
theorem C4_soft_contact_forces_layout (m : Model) (q qdot : VecN) :
    (soft_contact_forces m q qdot).length = 6 * nb_soft_contacts m ∧
    (∀ i k, i < nb_soft_contacts m → (hk : k < 6) →
      (soft_contact_forces m q qdot).getD (6 * i + k) 0 =
        m.s.softContactForceAtOrigin i q qdot ⟨k, hk⟩) ∧
    (nb_soft_contacts m = 0 → soft_contact_forces m q qdot = []) := by
  have hw : ∀ i, (softWrench m q qdot i).length = 6 := by
    intro i
    simp [softWrench]
  refine ⟨?_, ?_, ?_⟩
  · rw [soft_contact_forces, scfLoop_length, List.length_replicate]
    omega
  · intro i k hi hk
    have h := scfLoop_range_getD (softWrench m q qdot) hw
      (nb_soft_contacts m) (List.replicate (nb_soft_contacts m * 6) 0)
      (by simp) i k 0 hi hk
    rw [soft_contact_forces, show 6 * i + k = i * 6 + k by omega, h,
      softWrench, List.getD_eq_getElem _ _ (by simpa using hk),
      List.getElem_ofFn]
  · intro h0
    rw [soft_contact_forces, h0]
    rfl

/-- C4 witness: on the demo model (two soft contacts, wrench entry `k` of
contact `i` equal to `10*i + k`) row 9 holds entry 3 of contact 1; on the
no-soft-contact model the result is the empty (zero) vector. -/
theorem C4_soft_contact_forces_layout_witness :
    (soft_contact_forces demoModel [] []).length = 6 * 2 ∧
    (soft_contact_forces demoModel [] []).getD 9 0 = 13 ∧
    soft_contact_forces zeroSoftModel [] [] = [] := by
  refine ⟨?_, ?_, ?_⟩
  · exact (C4_soft_contact_forces_layout demoModel [] []).1
  · have h := (C4_soft_contact_forces_layout demoModel [] []).2.1 1 3
      (by decide) (by decide)
    rw [show (6 * 1 + 3 : Nat) = 9 from rfl] at h
    rw [h]
    decide
  · exact (C4_soft_contact_forces_layout zeroSoftModel [] []).2.2 rfl

theorem transposeRT_idRT : RT.transposeRT idRT = idRT := by
  funext i j
  simp [RT.transposeRT, idRT, eq_comm]

theorem applyRT_idRT (v : Vec3) : applyRT idRT v = v := by
  funext i
  fin_cases i <;>
    simp only [applyRT, idRT] <;>
    norm_num [Fin.ext_iff] <;>
    first
    | decide
    | (rw [if_neg (by decide)]; simp)

/-- C2: `marker_velocities` with no reference frame returns the same
matrix as `marker_velocities` with a reference frame whose global
homogeneous transform is the identity: the no-frame path and the
reference-frame path specialized to the identity transform agree. -/
theorem C2_marker_velocities_identity_frame (m : Model) (q qdot : VecN)
    (update_kin : Bool) (j : Nat)
    (hid : m.s.globalJCSE q j = idRT) :
    marker_velocities m q qdot update_kin none =
      marker_velocities m q qdot update_kin (some j) := by
  simp only [marker_velocities, global_homogeneous_matrices, hid,
    transposeRT_idRT]
  have h : applyRT idRT = id := funext applyRT_idRT
  rw [h, List.map_id]

/-- C2 witness: on the demo model, whose global transforms are all the
identity, the no-frame and frame-0 marker velocities coincide. -/
theorem C2_marker_velocities_identity_frame_witness :
    demoModel.s.globalJCSE [] 0 = idRT ∧
    marker_velocities demoModel [] [] true none =
      marker_velocities demoModel [] [] true (some 0) :=
  ⟨rfl, C2_marker_velocities_identity_frame demoModel [] [] true 0 rfl⟩

/-- C3 counterexample: `angular_momentum` does not return an `MX` value —
the source returns `self.model.angularMomentum(Q, Qdot, updateKin)` with
no `to_mx()` conversion, so at a concrete model and state the result is a
raw native engine value. -/
theorem C3_counterexample_angular_momentum_not_mx :
    (angular_momentum demoModel [] [] true).isMX = false := rfl

/-- C3 amended: of the cited operations only `markers` called with at
least one argument returns `MX` values (a list of `MX`); `markers` with no
arguments returns the raw bound method, `angular_momentum` and
`segment_angular_velocity` return the engine's raw native value at every
arity (no `to_mx()` in the source), and `marker` never returns an `MX`
value (raw bound method below two arguments, raw engine marker object
otherwise). -/
theorem C3_boundary_types_amended (m : Model) (q qdot : VecN)
    (updateKin : Bool) (idx : Nat) (args : List EngArg) :
    (markers m args).allMX = !args.isEmpty ∧
    (angular_momentum m q qdot updateKin).isMX = false ∧
    (segment_angular_velocity m q qdot idx updateKin).isMX = false ∧
    (marker m args).queriedMX = false := by
  refine ⟨?_, rfl, rfl, ?_⟩
  · cases args with
    | nil => rfl
    | cons a rest =>
      simp [markers, MarkersResult.allMX, List.all_eq_true, Boxed.isMX]
  · by_cases h : args.length > 1 <;>
      simp [marker, h, MarkerResult.queriedMX, Boxed.isMX]

/-- C5: indexing `marker_names` by `marker_index(name)` returns `name`,
for every name occurring in `marker_names`. -/
theorem C5_marker_index_roundtrip (m : Model) (name : String)
    (h : name ∈ marker_names m) :
    (marker_names m).getD (marker_index m name) "" = name := by
  unfold marker_names marker_index biorbdMarkerIndex
  unfold marker_names at h
  rw [List.getD_eq_getElem _ _ (List.indexOf_lt_length.2 h)]
  exact List.getElem_indexOf _

/-- C5 witness: round-trip for marker name `m1` of the demo model. -/
theorem C5_marker_index_roundtrip_witness :
    "m1" ∈ marker_names demoModel ∧
    (marker_names demoModel).getD (marker_index demoModel "m1") "" =
      "m1" :=
  ⟨by decide, C5_marker_index_roundtrip demoModel "m1" (by decide)⟩

/-- C6: `nb_q` equals the length of the `name_dof` tuple and `nb_markers`
equals the length of the `marker_names` tuple, for every model. -/
theorem C6_counts_match_name_tuples (m : Model) :
    nb_q m = (name_dof m).length ∧
    nb_markers m = (marker_names m).length := by
  constructor <;>
    simp [nb_q, name_dof, nb_markers, marker_names, ModelStruct.nbQ,
      ModelStruct.nameDof, ModelStruct.nbMarkers, ModelStruct.markerNamesE]

theorem exceptMap_passthrough {α β : Type} (f : α → β)
    (e : Except EngineErr α) (err : EngineErr) :
    Passthrough (e.map f) e err := by
  cases e <;> simp [Passthrough, Except.map, ExceptOk]

theorem passthrough_self {α : Type} (e : Except EngineErr α)
    (err : EngineErr) : Passthrough e e err :=
  ⟨rfl, Iff.rfl⟩

theorem scfLoopF_ok_iff (w : Nat → Except EngineErr (List Scalar)) :
    ∀ (l : List Nat) (acc : List Scalar),
      ExceptOk (scfLoopF w l acc) = true ↔ ∀ i ∈ l, ExceptOk (w i) = true
  | [], acc => by simp [scfLoopF, ExceptOk]
  | i :: rest, acc => by
    cases h : w i with
    | error e => simp [scfLoopF, h, ExceptOk]
    | ok b =>
      simp only [scfLoopF, h]
      rw [scfLoopF_ok_iff w rest]
      simp [h, ExceptOk]

theorem scfLoopF_error (w : Nat → Except EngineErr (List Scalar)) :
    ∀ (l : List Nat) (acc : List Scalar) (err : EngineErr),
      scfLoopF w l acc = Except.error err → ∃ i ∈ l, w i = Except.error err
  | [], acc, err => by simp [scfLoopF]
  | i :: rest, acc, err => by
    cases h : w i with
    | error e =>
      intro hl
      simp only [scfLoopF, h] at hl
      exact ⟨i, by simp, by rw [h, hl]⟩
    | ok b =>
      intro hl
      simp only [scfLoopF, h] at hl
      obtain ⟨i', hi', hw⟩ := scfLoopF_error w rest _ err hl
      exact ⟨i', by simp [hi'], hw⟩

/-- C7: the adapter is a transparent conduit for engine failures.  Every
operation taking the model's numeric state — the dynamics family, muscle
dynamics, the center-of-mass family, angular momentum, segment angular
velocity, velocity reshaping, torque bounds, rigid-contact acceleration,
transform/marker queries, marker velocities, and soft-contact force
assembly — succeeds exactly when its underlying engine call(s) succeed
and surfaces any engine error unchanged; operations whose low-arity
branch makes no engine call (`markers`, `marker`) cannot fail there.  No
operation catches, translates, retries, or recovers. -/
theorem C7_error_passthrough (m : Model) (q qdot qddot tau ms : VecN)
    (fext : Option VecN) (fc : Option (List VecN)) (args : List EngArg)
    (uk : Bool) (idx : Nat) (oidx : Option Nat) (ks : Scalar) (j : Nat)
    (err : EngineErr) :
    Passthrough (forward_dynamics m q qdot tau fext fc)
      (m.s.ForwardDynamicsE q qdot tau fext fc) err ∧
    Passthrough (inverse_dynamics m q qdot qddot fext fc)
      (m.s.InverseDynamicsE q qdot qddot fext fc) err ∧
    Passthrough (torque m tau q qdot) (m.s.torqueE tau q qdot) err ∧
    Passthrough (muscle_activation_dot m ms) (m.s.activationDotE ms) err ∧
    Passthrough (center_of_mass m q uk) (m.s.CoMF q uk) err ∧
    Passthrough (center_of_mass_velocity m q qdot uk)
      (m.s.CoMdotF q qdot uk) err ∧
    Passthrough (center_of_mass_acceleration m q qdot qddot uk)
      (m.s.CoMddotF q qdot qddot uk) err ∧
    Passthrough (reshape_qdot m q qdot ks) (m.s.computeQdotF q qdot ks) err ∧
    Passthrough (forward_dynamics_free_floating_base m q qdot qddot)
      (m.s.FDFreeFloatingBaseF q qdot qddot) err ∧
    Passthrough (constrained_forward_dynamics m args)
      (m.s.FDConstraintsDirectF args) err ∧
    Passthrough (contact_forces_from_constrained_forward_dynamics
      m q qdot tau fext) (m.s.contactForcesFDCDF q qdot tau fext) err ∧
    Passthrough (qdot_from_impact m q qdot)
      (m.s.impulsesDirectF q qdot) err ∧
    Passthrough (muscle_joint_torque m ms q qdot)
      (m.s.muscularJointTorqueF ms q qdot) err ∧
    Passthrough (tau_max m args) (m.s.torqueMaxF args) err ∧
    Passthrough (rigid_contact_acceleration m q qdot qddot oidx uk)
      (m.s.rigidContactAccelerationF q qdot qddot oidx uk) err ∧
    Passthrough (angular_momentumF m q qdot uk)
      (m.s.angularMomentumF q qdot uk) err ∧
    Passthrough (segment_angular_velocityF m q qdot idx uk)
      (m.s.segmentAngularVelocityF q qdot idx uk) err ∧
    Passthrough (global_homogeneous_matricesF m q j)
      (m.s.globalJCSF q j) err ∧
    (args.length ≠ 0 →
      Passthrough (markersF m args) (m.s.markersVarF args) err) ∧
    markersF m [] = Except.ok MarkersResult.method ∧
    (1 < args.length →
      Passthrough (markerF m args) (m.s.markerVarF args) err) ∧
    (args.length ≤ 1 → markerF m args = Except.ok MarkerResult.method) ∧
    Passthrough (marker_velocitiesF m q qdot uk none)
      (m.s.markersVelocityF q qdot uk) err ∧
    (ExceptOk (marker_velocitiesF m q qdot uk (some j)) =
        (ExceptOk (m.s.globalJCSF q j) &&
          ExceptOk (m.s.markersVelocityF q qdot uk)) ∧
      (marker_velocitiesF m q qdot uk (some j) = Except.error err ↔
        (m.s.globalJCSF q j = Except.error err ∨
          (ExceptOk (m.s.globalJCSF q j) = true ∧
            m.s.markersVelocityF q qdot uk = Except.error err)))) ∧
    (ExceptOk (soft_contact_forcesF m q qdot) = true ↔
      ∀ i, i < nb_soft_contacts m →
        ExceptOk (m.s.softContactForceF i q qdot) = true) ∧
    (soft_contact_forcesF m q qdot = Except.error err →
      ∃ i, i < nb_soft_contacts m ∧
        m.s.softContactForceF i q qdot = Except.error err) := by
  refine ⟨exceptMap_passthrough _ _ _, exceptMap_passthrough _ _ _,
    exceptMap_passthrough _ _ _, exceptMap_passthrough _ _ _,
    exceptMap_passthrough _ _ _, exceptMap_passthrough _ _ _,
    exceptMap_passthrough _ _ _, exceptMap_passthrough _ _ _,
    exceptMap_passthrough _ _ _, exceptMap_passthrough _ _ _,
    exceptMap_passthrough _ _ _, exceptMap_passthrough _ _ _,
    exceptMap_passthrough _ _ _, exceptMap_passthrough _ _ _,
    exceptMap_passthrough _ _ _, exceptMap_passthrough _ _ _,
    exceptMap_passthrough _ _ _, passthrough_self _ _,
    ?_, rfl, ?_, ?_, passthrough_self _ _, ?_, ?_, ?_⟩
  · intro h
    rw [markersF, if_neg h]
    exact exceptMap_passthrough _ _ _
  · intro h
    rw [markerF, if_pos h]
    exact exceptMap_passthrough _ _ _
  · intro h
    rw [markerF, if_neg (by omega)]
  · cases hT : m.s.globalJCSF q j <;>
      cases hv : m.s.markersVelocityF q qdot uk <;>
      simp [marker_velocitiesF, hT, hv, ExceptOk, Except.bind, Except.map]
  · have hmap : ∀ i,
        ExceptOk ((m.s.softContactForceF i q qdot).map List.ofFn) =
          ExceptOk (m.s.softContactForceF i q qdot) :=
      fun i => (exceptMap_passthrough List.ofFn _ err).1
    rw [soft_contact_forcesF, scfLoopF_ok_iff]
    simp only [List.mem_range, hmap]
  · intro hl
    rw [soft_contact_forcesF] at hl
    obtain ⟨i, hi, hw⟩ := scfLoopF_error _ _ _ _ hl
    exact ⟨i, by simpa using hi,
      (exceptMap_passthrough List.ofFn _ err).2.mp hw⟩

/-- C7 witness: on the demo model the engine-querying branches of
`markers`/`marker` succeed and the no-call branch cannot fail; on the
erring model the wrapped soft-contact failure is surfaced unchanged and
`forward_dynamics` fails exactly as its engine call does. -/
theorem C7_error_passthrough_witness :
    ExceptOk (markersF demoModel [EngArg.vec [], EngArg.idx 1]) = true ∧
    ExceptOk (markerF demoModel [EngArg.vec [], EngArg.idx 1]) = true ∧
    markerF demoModel [EngArg.idx 0] = Except.ok MarkerResult.method ∧
    (∃ i, i < nb_soft_contacts errModel ∧
      errModel.s.softContactForceF i [] [] = Except.error "boom") ∧
    forward_dynamics errModel [] [] [] none none =
      Except.error "boom" := by
  obtain ⟨hfd, _, _, _, _, _, _, _, _, _, _, _, _, _, _, _, _, _,
      _, _, _, _, _, _, _, h26⟩ :=
    C7_error_passthrough errModel [] [] [] [] [] none none
      [EngArg.idx 0] true 0 none 1 0 "boom"
  obtain ⟨_, _, _, _, _, _, _, _, _, _, _, _, _, _, _, _, _, _,
      g19, _, g21, _, _, _, _, _⟩ :=
    C7_error_passthrough demoModel [] [] [] [] [] none none
      [EngArg.vec [], EngArg.idx 1] true 0 none 1 0 "boom"
  obtain ⟨_, _, _, _, _, _, _, _, _, _, _, _, _, _, _, _, _, _,
      _, _, _, k22, _, _, _, _⟩ :=
    C7_error_passthrough demoModel [] [] [] [] [] none none
      [EngArg.idx 0] true 0 none 1 0 "boom"
  refine ⟨?_, ?_, ?_, ?_, ?_⟩
  · exact (g19 (by decide)).1.trans rfl
  · exact (g21 (by decide)).1.trans rfl
  · exact k22 (by decide)
  · exact h26 rfl
  · exact hfd.2.mpr rfl

/-- C8: every count/metadata accessor is a pure read: its value depends
only on the model's fixed structure (unchanged by any mutation of the
kinematics cache), and invoking it returns the model state unchanged. -/
theorem C8_count_accessors_pure :
    (∀ (s : ModelStruct) (c c' : KinCache),
      nb_q ⟨s, c⟩ = nb_q ⟨s, c'⟩ ∧ nb_qdot ⟨s, c⟩ = nb_qdot ⟨s, c'⟩ ∧
      nb_qddot ⟨s, c⟩ = nb_qddot ⟨s, c'⟩ ∧ nb_tau ⟨s, c⟩ = nb_tau ⟨s, c'⟩ ∧
      nb_quaternions ⟨s, c⟩ = nb_quaternions ⟨s, c'⟩ ∧
      nb_root ⟨s, c⟩ = nb_root ⟨s, c'⟩ ∧
      nb_segments ⟨s, c⟩ = nb_segments ⟨s, c'⟩ ∧
      nb_markers ⟨s, c⟩ = nb_markers ⟨s, c'⟩ ∧
      nb_muscles ⟨s, c⟩ = nb_muscles ⟨s, c'⟩ ∧
      nb_contacts ⟨s, c⟩ = nb_contacts ⟨s, c'⟩ ∧
      nb_rigid_contacts ⟨s, c⟩ = nb_rigid_contacts ⟨s, c'⟩ ∧
      nb_soft_contacts ⟨s, c⟩ = nb_soft_contacts ⟨s, c'⟩ ∧
      nb_dof ⟨s, c⟩ = nb_dof ⟨s, c'⟩) ∧
    (∀ (f : Model → Nat) (m : Model), (countCall f m).2 = m) :=
  ⟨fun _ _ _ =>
    ⟨rfl, rfl, rfl, rfl, rfl, rfl, rfl, rfl, rfl, rfl, rfl, rfl, rfl⟩,
    fun _ _ => rfl⟩

/-- C9: `marker` called with exactly one argument does not invoke the
engine's marker query: it discards the argument and returns the raw bound
method `self.model.marker`; the engine query is invoked exactly when two
or more arguments are passed. -/
theorem C9_marker_single_arg_skips_query (m : Model) (a : EngArg) :
    marker m [a] = MarkerResult.method ∧
    marker m [a] = marker m [] ∧
    (∀ args : List EngArg,
      marker m args ≠ MarkerResult.method ↔ 2 ≤ args.length) := by
  refine ⟨rfl, rfl, ?_⟩
  intro args
  by_cases h : args.length > 1
  · simp only [marker, if_pos h]
    constructor
    · intro _
      omega
    · intro _ heq
      exact MarkerResult.noConfusion heq
  · simp only [marker, if_neg h]
    constructor
    · intro hne
      exact absurd rfl hne
    · intro h2
      omega
